import Mathlib

/-!
Verification development for the go-openai-chatbot repository: a shallow
embedding of the MCP tool-registry (external/clients/mcp/mcp-manager.go),
the tool-orchestration loop (internal/send-receive/send-receive-once.go)
and the memory-chatbot service (internal/service/memory-chatbot-service.go),
together with theorems about the specified properties.
Go strings are modelled as Lean strings (lists of chars; the payloads in
question are ASCII, so byte indices and char indices coincide), Go maps as
association lists, Go sessions as numeric handles.
-/

namespace GoChat

/-- Go strings.Split(s, sep) specialised to the separator of two underscores,
operating on the character list of the string: scans left to right, cutting at
every non-overlapping occurrence of the separator (Split("", sep) = [""]). -/
def splitUU : List Char → List (List Char)
  | [] => [[]]
  | [c] => [[c]]
  | c1 :: c2 :: rest =>
    if c1 = '_' ∧ c2 = '_' then
      [] :: splitUU rest
    else
      match splitUU (c2 :: rest) with
      | [] => [[c1]]
      | seg :: segs => (c1 :: seg) :: segs

/-- Whether the two-underscore separator occurs anywhere in the character list. -/
def hasUU : List Char → Bool
  | [] => false
  | [_] => false
  | c1 :: c2 :: rest => (decide (c1 = '_' ∧ c2 = '_')) || hasUU (c2 :: rest)

theorem splitUU_sep (t : List Char) : splitUU ('_' :: '_' :: t) = [] :: splitUU t := by
  simp [splitUU]

theorem splitUU_ne_nil (t : List Char) : splitUU t ≠ [] := by
  induction t using splitUU.induct with
  | case1 => simp [splitUU]
  | case2 c => simp [splitUU]
  | case3 c1 c2 rest hcond ih => simp [splitUU, hcond]
  | case4 c1 c2 rest hcond hnil ih =>
    rw [splitUU, if_neg hcond, hnil]
    simp
  | case5 c1 c2 rest hcond seg segs heq ih =>
    rw [splitUU, if_neg hcond, heq]
    simp

theorem splitUU_no_sep (t : List Char) (h : hasUU t = false) : splitUU t = [t] := by
  induction t using splitUU.induct with
  | case1 => rfl
  | case2 c => rfl
  | case3 c1 c2 rest hcond ih =>
    simp only [hasUU, Bool.or_eq_false_iff, decide_eq_false_iff_not] at h
    exact absurd h.1 (by simpa using hcond)
  | case4 c1 c2 rest hcond hnil ih =>
    exact absurd hnil (splitUU_ne_nil _)
  | case5 c1 c2 rest hcond seg segs heq ih =>
    simp only [hasUU, Bool.or_eq_false_iff, decide_eq_false_iff_not] at h
    have hrest := ih h.2
    rw [splitUU, if_neg h.1, heq]
    rw [hrest] at heq
    cases heq
    rfl

theorem splitUU_prepend (b : List Char) (t : List Char)
    (hb : hasUU b = false) (hlast : b.getLast? ≠ some '_') :
    splitUU (b ++ '_' :: '_' :: t) = b :: splitUU t := by
  induction b using splitUU.induct with
  | case1 => simpa using splitUU_sep t
  | case2 c =>
    have hc : ¬(c = '_' ∧ '_' = '_') := by
      intro hand
      exact hlast (by simp [hand.1])
    rw [List.cons_append, List.nil_append, splitUU]
    rw [if_neg hc, splitUU_sep t]
  | case3 c1 c2 rest hcond ih =>
    simp only [hasUU, Bool.or_eq_false_iff, decide_eq_false_iff_not] at hb
    exact absurd hb.1 (by simpa using hcond)
  | case4 c1 c2 rest hcond hnil ih =>
    exact absurd hnil (splitUU_ne_nil _)
  | case5 c1 c2 rest hcond seg segs heq ih =>
    simp only [hasUU, Bool.or_eq_false_iff, decide_eq_false_iff_not] at hb
    have hlast' : (c2 :: rest).getLast? ≠ some '_' := by
      simpa [List.getLast?_cons_cons] using hlast
    have hrec := ih hb.2 hlast'
    rw [List.cons_append, List.cons_append, splitUU]
    rw [if_neg hb.1]
    rw [List.cons_append] at hrec
    rw [hrec]

/-- Lookup in an association list, the model of a Go map read m[k]. -/
def alookup {κ α : Type} [DecidableEq κ] : List (κ × α) → κ → Option α
  | [], _ => none
  | (k, v) :: rest, key => if k = key then some v else alookup rest key

/-- Assignment m[k] = v in an association list, the model of a Go map write:
replaces the entry if the key is present, appends it otherwise. -/
def aupsert {κ α : Type} [DecidableEq κ] : List (κ × α) → κ → α → List (κ × α)
  | [], k, v => [(k, v)]
  | (k', v') :: rest, k, v =>
    if k' = k then (k, v) :: rest else (k', v') :: aupsert rest k v

/-- Deletion delete(m, k) in an association list, the model of a Go map delete. -/
def aerase {κ α : Type} [DecidableEq κ] : List (κ × α) → κ → List (κ × α)
  | [], _ => []
  | (k', v') :: rest, k => if k' = k then aerase rest k else (k', v') :: aerase rest k

theorem alookup_aupsert {κ α : Type} [DecidableEq κ] (l : List (κ × α)) (k : κ) (v : α) :
    alookup (aupsert l k v) k = some v := by
  induction l with
  | nil => simp [aupsert, alookup]
  | cons e rest ih =>
    obtain ⟨k', v'⟩ := e
    by_cases h : k' = k
    · simp [aupsert, alookup, h]
    · simp [aupsert, alookup, h, ih]

theorem alookup_aupsert_ne {κ α : Type} [DecidableEq κ] (l : List (κ × α)) (k k' : κ)
    (v : α) (hne : k ≠ k') : alookup (aupsert l k v) k' = alookup l k' := by
  induction l with
  | nil => simp [aupsert, alookup, hne]
  | cons e rest ih =>
    obtain ⟨k0, v0⟩ := e
    by_cases h : k0 = k
    · subst h
      simp [aupsert, alookup, hne]
    · simp [aupsert, alookup, h, ih]

theorem alookup_aerase {κ α : Type} [DecidableEq κ] (l : List (κ × α)) (k : κ) :
    alookup (aerase l k) k = none := by
  induction l with
  | nil => simp [aerase, alookup]
  | cons e rest ih =>
    obtain ⟨k', v'⟩ := e
    by_cases h : k' = k
    · simp [aerase, h, ih]
    · simp [aerase, alookup, h, ih]

/-- MCPServerConfig (mcp-manager.go 18-23). -/
structure MCPServerConfig where
  name : String
  endpoint : String
  apiKey : String
deriving DecidableEq

/-- Raw tool descriptor reported by a backend (the fields of mcp.Tool that the
manager reads: Name, Description; the input schema is not needed by any claim). -/
structure Tool where
  name : String
  description : String
deriving DecidableEq

/-- Published model-facing tool definition (openai.FunctionDefinitionParam as
built in RegisterServer: fully-qualified Name, Description). -/
structure ToolSchema where
  name : String
  description : String
deriving DecidableEq

/-- Manager (mcp-manager.go 26-40): sessions, tools and schemas maps keyed by
server name, plus the registration-order list. Sessions are numeric handles. -/
structure Manager where
  sessions : List (String × Nat)
  tools : List (String × List Tool)
  schemas : List (String × List ToolSchema)
  order : List String
deriving DecidableEq

/-- Published OpenAI schemas built in RegisterServer (mcp-manager.go 125-161):
one entry per reported tool, named cfg.Name + two underscores + tool.Name. -/
def mkOpenAISchemas (cfgName : String) (ts : List Tool) : List ToolSchema :=
  ts.map (fun t => { name := cfgName ++ "__" ++ t.name, description := t.description })

/-- Success-path registry update of RegisterServer (mcp-manager.go 163-182):
store session, tools and schemas under cfg.Name (closing any old session),
and append the name to the order list if not already there. -/
def applyRegistration (m : Manager) (cfgName : String) (session : Nat)
    (ts : List Tool) : Manager :=
  { sessions := aupsert m.sessions cfgName session
    tools := aupsert m.tools cfgName ts
    schemas := aupsert m.schemas cfgName (mkOpenAISchemas cfgName ts)
    order := if cfgName ∈ m.order then m.order else m.order ++ [cfgName] }

/-- Outcome of one RegisterServer call: an error return, a successful return
with the updated registry, or a runtime panic (nil-pointer dereference). -/
inductive RegResult where
  | ok : Manager → RegResult
  | err : String → Manager → RegResult
  | panicked : Manager → RegResult
deriving DecidableEq

/-- RegisterServer (mcp-manager.go 95-186). The network is abstracted by the
two parameters: connect is the outcome of client.Connect (a session handle on
success) and listTools the outcome of session.ListTools. Note the connect
error path: the source only logs the error (slog.Error, line 114) and does
not return, so execution continues into session.ListTools with session nil,
a nil-pointer dereference; this is modelled as RegResult.panicked. -/
def registerServer (m : Manager) (cfg : MCPServerConfig)
    (connect : Except String Nat)
    (listTools : Nat → Except String (List Tool)) : RegResult :=
  if cfg.name = "" then .err "server name required" m
  else if cfg.endpoint = "" then .err "endpoint required" m
  else
    match connect with
    | .error _ => .panicked m
    | .ok session =>
      match listTools session with
      | .error e => .err ("failed to list tools on " ++ cfg.name ++ ": " ++ e) m
      | .ok ts => .ok (applyRegistration m cfg.name session ts)

/-- UnregisterServer (mcp-manager.go 219-231): closes the session if present
(best effort, the close error is discarded), deletes the sessions, tools and
schemas entries for the name, and returns nil. The order list is not touched. -/
def unregisterServer (m : Manager) (name : String) : Manager × Option String :=
  ({ sessions := aerase m.sessions name
     tools := aerase m.tools name
     schemas := aerase m.schemas name
     order := m.order }, none)

/-- ListServersInOrder (mcp-manager.go 279-285): returns (a copy of) the
registration-order list. -/
def listServersInOrder (m : Manager) : List String := m.order

/-- Character-list split lifted back to strings, Go strings.Split(s, sep) for
the two-underscore separator. -/
def splitUUStr (s : String) : List String := (splitUU s.data).map String.mk

/-- Routing outcome of Manager.CallTool (mcp-manager.go 287-305): the name is
split on the separator; a split into anything but two parts is the routing
error of line 290; otherwise GetSession looks the backend up and, when the
backend is absent, GetSession returns nil and the method call on the nil
session dereferences it (the source has no nil check) — modelled as
nilSessionPanic; when present the call is forwarded to that backend's session
with the short tool name. -/
inductive CallOutcome where
  | routingError : String → CallOutcome
  | nilSessionPanic : CallOutcome
  | forwarded : Nat → String → String → CallOutcome
deriving DecidableEq

/-- CallTool's routing logic (mcp-manager.go 287-305), with the backend's
actual response abstracted away: the claims under verification concern which
backend and short tool name the call is routed to. -/
def callToolRoute (m : Manager) (toolName : String) : CallOutcome :=
  match splitUUStr toolName with
  | [backend, tool] =>
    match alookup m.sessions backend with
    | none => .nilSessionPanic
    | some s => .forwarded s backend tool
  | _ => .routingError toolName

theorem string_mk_data (s : String) : String.mk s.data = s := by
  cases s
  rfl

theorem string_data_append (s t : String) : (s ++ t).data = s.data ++ t.data := by
  cases s
  cases t
  rfl

/-- C1 (amended): the published catalogue entry for backend b and reported
tool t is always named b + "__" + t; invoking that fully-qualified name routes
to backend b's connection with short tool name t provided b contains no "__"
and does not end in "_" and t contains no "__"; and any name that does not
split into exactly two parts on the separator fails with the routing error. -/
theorem c1_fully_qualified_naming (m : Manager) :
    (∀ (cfg : MCPServerConfig) (s : Nat) (lt : Nat → Except String (List Tool))
        (ts : List Tool) (m' : Manager),
      registerServer m cfg (.ok s) lt = .ok m' → lt s = .ok ts →
      alookup m'.schemas cfg.name
        = some (ts.map (fun t =>
            ({ name := cfg.name ++ "__" ++ t.name,
               description := t.description } : ToolSchema))))
    ∧ (∀ (b t : String) (s : Nat),
        hasUU b.data = false → b.data.getLast? ≠ some '_' → hasUU t.data = false →
        alookup m.sessions b = some s →
        callToolRoute m (b ++ "__" ++ t) = .forwarded s b t)
    ∧ (∀ name : String, (splitUUStr name).length ≠ 2 →
        callToolRoute m name = .routingError name) := by
  refine ⟨?_, ?_, ?_⟩
  · intro cfg s lt ts m' hreg hlt
    by_cases h1 : cfg.name = ""
    · simp [registerServer, h1] at hreg
    by_cases h2 : cfg.endpoint = ""
    · simp [registerServer, h1, h2] at hreg
    simp only [registerServer, h1, h2, if_false, hlt] at hreg
    cases hreg
    simp [applyRegistration, alookup_aupsert, mkOpenAISchemas]
  · intro b t s hb hlast ht hsess
    have hdata : (b ++ "__" ++ t).data = b.data ++ '_' :: '_' :: t.data := by
      rw [string_data_append, string_data_append]
      simp [List.append_assoc]
    have hsplit : splitUUStr (b ++ "__" ++ t) = [b, t] := by
      unfold splitUUStr
      rw [hdata, splitUU_prepend b.data t.data hb hlast, splitUU_no_sep t.data ht]
      simp [string_mk_data]
    simp [callToolRoute, hsplit, hsess]
  · intro name hlen
    match hsp : splitUUStr name with
    | [] => simp [callToolRoute, hsp]
    | [a] => simp [callToolRoute, hsp]
    | [a, b] => rw [hsp] at hlen; simp at hlen
    | a :: b :: c :: rest => simp [callToolRoute, hsp]

/-- Registry with a single backend whose own name contains the separator. -/
def M1 : Manager :=
  { sessions := [("a__b", 7)]
    tools := [("a__b", [{ name := "c", description := "d" }])]
    schemas := [("a__b", [{ name := "a__b__c", description := "d" }])]
    order := ["a__b"] }

/-- C1 counterexample: for backend "a__b" and tool "c" the catalogue entry is
"a__b__c", but invoking it does not route to backend "a__b": the name splits
into three parts, so CallTool fails with the routing error instead. -/
theorem c1_counterexample :
    ("a__b" ++ "__" ++ "c" : String) = "a__b__c"
    ∧ callToolRoute M1 "a__b__c" = CallOutcome.routingError "a__b__c"
    ∧ callToolRoute M1 "a__b__c" ≠ CallOutcome.forwarded 7 "a__b" "c" := by decide

/-- Registry with one separator-free backend name, for the C1 witness. -/
def Mgr1 : Manager :=
  { sessions := [("weather", 7)]
    tools := [("weather", [{ name := "get_forecast", description := "f" }])]
    schemas := [("weather", [{ name := "weather__get_forecast", description := "f" }])]
    order := ["weather"] }

theorem c1_witness :
    callToolRoute Mgr1 ("weather" ++ "__" ++ "get_forecast")
      = CallOutcome.forwarded 7 "weather" "get_forecast" :=
  (c1_fully_qualified_naming Mgr1).2.1 "weather" "get_forecast" 7
    (by decide) (by decide) (by decide) (by decide)

/-- Registry in an arbitrary prior state, for the C4 failing input. -/
def M4 : Manager :=
  { sessions := [("redis", 3)]
    tools := [("redis", [{ name := "get", description := "g" }])]
    schemas := [("redis", [{ name := "redis__get", description := "g" }])]
    order := ["redis"] }

/-- C4: at the failing input (a registration whose connection attempt fails),
RegisterServer does not return the error to its caller: the source only logs
the connect error and proceeds to call ListTools on the nil session, a
nil-pointer dereference, modelled as RegResult.panicked (the registry is
indeed left unchanged, but no error is returned). -/
theorem c4_connect_failure_not_returned :
    registerServer M4
        { name := "weather", endpoint := "http://203.0.113.9:8080", apiKey := "" }
        (Except.error "connection refused") (fun _ => Except.ok [])
      = RegResult.panicked M4 := by decide

/-- Registry with no backends registered. -/
def emptyManager : Manager := ⟨[], [], [], []⟩

/-- C7: at the failing input (a well-formed fully-qualified name whose backend
part is not registered), CallTool does not fail with a not-found error: the
source calls the method on the nil session returned by GetSession, a
nil-pointer dereference, modelled as nilSessionPanic. -/
theorem c7_missing_backend_panics :
    callToolRoute emptyManager "ghost__echo" = CallOutcome.nilSessionPanic := by decide

/-- C9 (amended): unregister closes the connection best-effort and always
returns nil, and deletes the sessions, tools and schemas entries for the
name, so those queries no longer report it; the registration-order list is
left untouched, so ListServersInOrder still reports the name. -/
theorem c9_unregister_state (m : Manager) (name : String) :
    (unregisterServer m name).2 = none
    ∧ alookup (unregisterServer m name).1.sessions name = none
    ∧ alookup (unregisterServer m name).1.tools name = none
    ∧ alookup (unregisterServer m name).1.schemas name = none
    ∧ listServersInOrder (unregisterServer m name).1 = m.order :=
  ⟨rfl, alookup_aerase _ _, alookup_aerase _ _, alookup_aerase _ _, rfl⟩

/-- Registry with one backend, for the C9 counterexample. -/
def M9 : Manager :=
  { sessions := [("alpha", 1)]
    tools := [("alpha", [])]
    schemas := [("alpha", [])]
    order := ["alpha"] }

/-- C9 counterexample: after unregistering "alpha" the sessions map no longer
reports it, but the registration-order introspection ListServersInOrder still
does — contradicting the claim that no registry query still reports the name. -/
theorem c9_counterexample :
    alookup (unregisterServer M9 "alpha").1.sessions "alpha" = none
    ∧ listServersInOrder (unregisterServer M9 "alpha").1 = ["alpha"] := by decide

/-- Data produced by a successful RegisterServer call inside the batch loop:
the connected session handle and the tool list it reported. -/
structure RegData where
  session : Nat
  tools : List Tool
deriving DecidableEq

/-- One backend of a RegisterServers batch, with the nondeterministic inputs
of its goroutine made explicit per attempt number (1-based): the outcome of
client.Connect, the outcome of session.ListTools, and whether the shared
errgroup context is already done during the backoff wait that follows the
attempt (the select at mcp-manager.go 201-207 then takes its ctx.Done()
branch instead of the timer). -/
structure BackendRun where
  cfg : MCPServerConfig
  connectAt : Nat → Except String Nat
  listToolsAt : Nat → Nat → Except String (List Tool)
  cancelledAt : Nat → Bool

/-- Outcome of one backend's retry loop: panicked when one of its
RegisterServer calls panics (the nil-session dereference of the
connect-failure path, see registerServer) — errgroup does not recover
panics, so the goroutine's panic brings the process down; otherwise
completed with the resulting registry, the returned error (nil, the
context error, or the last attempt's error), the number of attempts made
and the backoff waits completed (in ms). -/
inductive LoopResult where
  | panicked : LoopResult
  | completed : Manager → Option String → Nat → List Nat → LoopResult
deriving DecidableEq

/-- Per-backend retry loop of RegisterServers (mcp-manager.go 194-213), the
bounded for-loop unrolled: each attempt calls RegisterServer; on a returned
error the select waits out the backoff (300ms, then doubled after every
wait) unless the shared context is done, in which case ctx.Err() — the
string "context canceled" — is returned with the attempts made so far;
after the third failed attempt and its (useless) 1200ms wait the loop exits
and returns lastErr. -/
def registerLoop (m : Manager) (r : BackendRun) : LoopResult :=
  match registerServer m r.cfg (r.connectAt 1) (r.listToolsAt 1) with
  | .panicked _ => .panicked
  | .ok m1 => .completed m1 none 1 []
  | .err _ _ =>
    if r.cancelledAt 1 then .completed m (some "context canceled") 1 []
    else
      match registerServer m r.cfg (r.connectAt 2) (r.listToolsAt 2) with
      | .panicked _ => .panicked
      | .ok m2 => .completed m2 none 2 [300]
      | .err _ _ =>
        if r.cancelledAt 2 then .completed m (some "context canceled") 2 [300]
        else
          match registerServer m r.cfg (r.connectAt 3) (r.listToolsAt 3) with
          | .panicked _ => .panicked
          | .ok m3 => .completed m3 none 3 [300, 600]
          | .err e3 _ =>
            if r.cancelledAt 3 then .completed m (some "context canceled") 3 [300, 600]
            else .completed m (some e3) 3 [300, 600, 1200]

/-- RegisterServers (mcp-manager.go 190-216): runs the per-backend retry
loops of a batch; none models the process crash caused by a panicking
goroutine (errgroup does not recover panics); otherwise the final registry
and the first terminal error are returned (errgroup.Wait keeps the first
error it sees; completion order is abstracted as batch order). Successful
registrations are kept regardless of other backends' returned errors. -/
def registerServers (m : Manager) : List BackendRun → Option (Manager × Option String)
  | [] => some (m, none)
  | r :: rest =>
    match registerLoop m r with
    | .panicked => none
    | .completed m1 e _ _ =>
      match registerServers m1 rest with
      | none => none
      | some (m2, es) => some (m2, e <|> es)

/-- Classification of one RegisterServer call without the registry write:
success with the session and tools to store, a returned error, or the
crash of the connect-failure path. -/
inductive AttemptResult where
  | success : Nat → List Tool → AttemptResult
  | failure : String → AttemptResult
  | crashed : AttemptResult
deriving DecidableEq

/-- The decision prefix of RegisterServer (validation, connect, list tools),
identical to registerServer except that it does not carry the registry. -/
def registerAttempt (cfg : MCPServerConfig) (connect : Except String Nat)
    (listTools : Nat → Except String (List Tool)) : AttemptResult :=
  if cfg.name = "" then .failure "server name required"
  else if cfg.endpoint = "" then .failure "endpoint required"
  else
    match connect with
    | .error _ => .crashed
    | .ok session =>
      match listTools session with
      | .error e => .failure ("failed to list tools on " ++ cfg.name ++ ": " ++ e)
      | .ok ts => .success session ts

/-- Classification of a backend's k-th RegisterServer call. -/
def attemptAt (r : BackendRun) (k : Nat) : AttemptResult :=
  registerAttempt r.cfg (r.connectAt k) (r.listToolsAt k)

theorem registerServer_attempt (m : Manager) (cfg : MCPServerConfig)
    (c : Except String Nat) (lt : Nat → Except String (List Tool)) :
    registerServer m cfg c lt
      = match registerAttempt cfg c lt with
        | .success s ts => .ok (applyRegistration m cfg.name s ts)
        | .failure e => .err e m
        | .crashed => .panicked m := by
  unfold registerServer registerAttempt
  by_cases h1 : cfg.name = ""
  · simp [h1]
  by_cases h2 : cfg.endpoint = ""
  · simp [h1, h2]
  simp only [h1, h2, if_false]
  rcases c with e | s
  · rfl
  · dsimp only
    rcases lt s with e | ts <;> rfl

/-- Registry-free summary of a backend's retry loop: none when some attempt
crashes; otherwise the stored registration data (when an attempt succeeds),
the returned error, the attempts made and the waits completed. -/
def loopSummary (r : BackendRun) :
    Option (Option RegData × Option String × Nat × List Nat) :=
  match attemptAt r 1 with
  | .crashed => none
  | .success s ts => some (some ⟨s, ts⟩, none, 1, [])
  | .failure _ =>
    if r.cancelledAt 1 then some (none, some "context canceled", 1, [])
    else
      match attemptAt r 2 with
      | .crashed => none
      | .success s ts => some (some ⟨s, ts⟩, none, 2, [300])
      | .failure _ =>
        if r.cancelledAt 2 then some (none, some "context canceled", 2, [300])
        else
          match attemptAt r 3 with
          | .crashed => none
          | .success s ts => some (some ⟨s, ts⟩, none, 3, [300, 600])
          | .failure e3 =>
            if r.cancelledAt 3 then some (none, some "context canceled", 3, [300, 600])
            else some (none, some e3, 3, [300, 600, 1200])

theorem registerLoop_summary (m : Manager) (r : BackendRun) :
    registerLoop m r
      = match loopSummary r with
        | none => LoopResult.panicked
        | some (some d, e, a, w) =>
            LoopResult.completed (applyRegistration m r.cfg.name d.session d.tools) e a w
        | some (none, e, a, w) => LoopResult.completed m e a w := by
  unfold registerLoop loopSummary attemptAt
  rw [registerServer_attempt, registerServer_attempt, registerServer_attempt]
  cases registerAttempt r.cfg (r.connectAt 1) (r.listToolsAt 1) with
  | success s ts => rfl
  | crashed => rfl
  | failure e1 =>
    by_cases hc1 : r.cancelledAt 1 = true
    · simp [hc1]
    · simp only [hc1, if_false, Bool.false_eq_true]
      cases registerAttempt r.cfg (r.connectAt 2) (r.listToolsAt 2) with
      | success s ts => rfl
      | crashed => rfl
      | failure e2 =>
        by_cases hc2 : r.cancelledAt 2 = true
        · simp [hc2]
        · simp only [hc2, if_false, Bool.false_eq_true]
          cases registerAttempt r.cfg (r.connectAt 3) (r.listToolsAt 3) with
          | success s ts => rfl
          | crashed => rfl
          | failure e3 =>
            by_cases hc3 : r.cancelledAt 3 = true
            · simp [hc3]
            · simp [hc3]

/-- The registration data with which a backend's retry loop succeeds, if it
completes successfully. -/
def loopData (r : BackendRun) : Option RegData :=
  match loopSummary r with
  | none => none
  | some (d, _, _, _) => d

/-- The error a backend's retry loop returns, if it completes with one. -/
def loopErr (r : BackendRun) : Option String :=
  match loopSummary r with
  | none => none
  | some (_, e, _, _) => e

/-- First present value in a list of options. -/
def firstSome {α : Type} : List (Option α) → Option α
  | [] => none
  | o :: rest => o <|> firstSome rest

theorem summary_of_registerLoop (m : Manager) (r : BackendRun) (m1 : Manager)
    (e : Option String) (a : Nat) (w : List Nat)
    (h : registerLoop m r = LoopResult.completed m1 e a w) :
    ∃ dopt, loopSummary r = some (dopt, e, a, w)
      ∧ m1 = match dopt with
             | some d => applyRegistration m r.cfg.name d.session d.tools
             | none => m := by
  rw [registerLoop_summary] at h
  rcases hs : loopSummary r with _ | ⟨dopt, e', a', w'⟩
  · rw [hs] at h
    simp at h
  · rw [hs] at h
    rcases dopt with _ | d
    · dsimp only at h
      injection h with hm he ha hw
      refine ⟨none, ?_, ?_⟩
      · rw [he, ha, hw]
      · exact hm.symm
    · dsimp only at h
      injection h with hm he ha hw
      refine ⟨some d, ?_, ?_⟩
      · rw [he, ha, hw]
      · exact hm.symm

theorem registerServers_err (runs : List BackendRun) :
    ∀ (m mF : Manager) (eF : Option String),
      registerServers m runs = some (mF, eF) → eF = firstSome (runs.map loopErr) := by
  induction runs with
  | nil =>
    intro m mF eF h
    simp only [registerServers, Option.some.injEq, Prod.mk.injEq] at h
    rw [← h.2]
    rfl
  | cons r rest ih =>
    intro m mF eF h
    rcases hl : registerLoop m r with _ | ⟨m1, e, a, w⟩
    · rw [registerServers, hl] at h
      simp at h
    · rw [registerServers, hl] at h
      dsimp only at h
      rcases hr : registerServers m1 rest with _ | ⟨m2, es⟩
      · rw [hr] at h
        simp at h
      · rw [hr] at h
        simp only [Option.some.injEq, Prod.mk.injEq] at h
        obtain ⟨d0, hsum, -⟩ := summary_of_registerLoop m r m1 e a w hl
        have hLE : loopErr r = e := by
          unfold loopErr
          rw [hsum]
        rw [← h.2, List.map_cons, firstSome, hLE, ih m1 m2 es hr]

theorem registerServers_frame (runs : List BackendRun) :
    ∀ (m mF : Manager) (eF : Option String) (name : String),
      name ∉ runs.map (fun r => r.cfg.name) →
      registerServers m runs = some (mF, eF) →
      alookup mF.sessions name = alookup m.sessions name
      ∧ alookup mF.schemas name = alookup m.schemas name := by
  induction runs with
  | nil =>
    intro m mF eF name _ h
    simp only [registerServers, Option.some.injEq, Prod.mk.injEq] at h
    rw [← h.1]
    exact ⟨rfl, rfl⟩
  | cons r rest ih =>
    intro m mF eF name hnm h
    simp only [List.map_cons, List.mem_cons, not_or] at hnm
    rcases hl : registerLoop m r with _ | ⟨m1, e, a, w⟩
    · rw [registerServers, hl] at h
      simp at h
    · rw [registerServers, hl] at h
      dsimp only at h
      rcases hr : registerServers m1 rest with _ | ⟨m2, es⟩
      · rw [hr] at h
        simp at h
      · rw [hr] at h
        simp only [Option.some.injEq, Prod.mk.injEq] at h
        obtain ⟨dopt, hsum, hm1⟩ := summary_of_registerLoop m r m1 e a w hl
        have hframe1 : alookup m1.sessions name = alookup m.sessions name
            ∧ alookup m1.schemas name = alookup m.schemas name := by
          rcases dopt with _ | d
          · dsimp only at hm1
            rw [hm1]
            exact ⟨rfl, rfl⟩
          · dsimp only at hm1
            rw [hm1]
            exact ⟨alookup_aupsert_ne _ _ _ _ (fun hx => hnm.1 hx.symm),
              alookup_aupsert_ne _ _ _ _ (fun hx => hnm.1 hx.symm)⟩
        have hrest := ih m1 m2 es name hnm.2 hr
        rw [← h.1]
        exact ⟨hrest.1.trans hframe1.1, hrest.2.trans hframe1.2⟩

theorem registerServers_success (runs : List BackendRun) :
    ∀ (m mF : Manager) (eF : Option String),
      (runs.map (fun r => r.cfg.name)).Nodup →
      registerServers m runs = some (mF, eF) →
      ∀ r, r ∈ runs → ∀ d, loopData r = some d →
      alookup mF.sessions r.cfg.name = some d.session
      ∧ alookup mF.schemas r.cfg.name = some (mkOpenAISchemas r.cfg.name d.tools) := by
  induction runs with
  | nil =>
    intro m mF eF _ _ r hmem
    cases hmem
  | cons r0 rest ih =>
    intro m mF eF hnd h r hmem d hd
    rw [List.map_cons, List.nodup_cons] at hnd
    rcases hl : registerLoop m r0 with _ | ⟨m1, e, a, w⟩
    · rw [registerServers, hl] at h
      simp at h
    · rw [registerServers, hl] at h
      dsimp only at h
      rcases hr : registerServers m1 rest with _ | ⟨m2, es⟩
      · rw [hr] at h
        simp at h
      · rw [hr] at h
        simp only [Option.some.injEq, Prod.mk.injEq] at h
        rcases List.mem_cons.mp hmem with heq | hmem'
        · subst heq
          obtain ⟨dopt, hsum, hm1⟩ := summary_of_registerLoop m r m1 e a w hl
          have hdopt : dopt = some d := by
            unfold loopData at hd
            rw [hsum] at hd
            exact hd
          subst hdopt
          dsimp only at hm1
          have hfr := registerServers_frame rest m1 m2 es r.cfg.name hnd.1 hr
          rw [← h.1]
          constructor
          · rw [hfr.1, hm1]
            exact alookup_aupsert _ _ _
          · rw [hfr.2, hm1]
            exact alookup_aupsert _ _ _
        · rw [← h.1]
          exact ih m1 m2 es hnd.2 hr r hmem' d hd

/-- C5 (amended): in a batch registration, (a) a backend whose three
RegisterServer calls all fail with returned errors, with the shared context
never cancelled during its backoff waits, is attempted exactly 3 times with
doubling backoff waits 300, 600, 1200 ms and then counted as failed with
its last attempt's error, the registry untouched — whereas a connect
failure is not retried at all (RegisterServer panics, see C4) and a
cancellation mid-wait ends the loop early with the context error; (b) every
backend whose retry loop completes successfully keeps its registration in
the final registry, regardless of other backends' returned failures; (c)
the error returned is the first terminal error of the batch (completion
order abstracted as batch order). -/
theorem c5_retry_policy (m : Manager) (runs : List BackendRun)
    (hnd : (runs.map (fun r => r.cfg.name)).Nodup) :
    (∀ r, r ∈ runs → ∀ e1 e2 e3,
       attemptAt r 1 = .failure e1 → attemptAt r 2 = .failure e2 →
       attemptAt r 3 = .failure e3 →
       r.cancelledAt 1 = false → r.cancelledAt 2 = false → r.cancelledAt 3 = false →
       registerLoop m r = LoopResult.completed m (some e3) 3 [300, 600, 1200])
    ∧ (∀ mF eF, registerServers m runs = some (mF, eF) →
        ∀ r, r ∈ runs → ∀ d, loopData r = some d →
        alookup mF.sessions r.cfg.name = some d.session
        ∧ alookup mF.schemas r.cfg.name = some (mkOpenAISchemas r.cfg.name d.tools))
    ∧ (∀ mF eF, registerServers m runs = some (mF, eF) →
        eF = firstSome (runs.map loopErr)) := by
  refine ⟨?_, ?_, ?_⟩
  · intro r _ e1 e2 e3 h1 h2 h3 hc1 hc2 hc3
    rw [registerLoop_summary]
    have hsum : loopSummary r = some (none, some e3, 3, [300, 600, 1200]) := by
      unfold loopSummary
      rw [h1, h2, h3]
      simp [hc1, hc2, hc3]
    rw [hsum]
  · intro mF eF h r hmem d hd
    exact registerServers_success runs m mF eF hnd h r hmem d hd
  · intro mF eF h
    exact registerServers_err runs m mF eF h

/-- A backend whose connection attempt always fails: per C4, RegisterServer
panics on the nil session, so no retry ever happens. -/
def runCrash : BackendRun :=
  { cfg := { name := "notion", endpoint := "http://203.0.113.7:7777", apiKey := "" }
    connectAt := fun _ => Except.error "dial tcp: connection refused"
    listToolsAt := fun _ _ => Except.ok []
    cancelledAt := fun _ => false }

/-- A backend whose attempts fail with returned errors while the shared
errgroup context is already cancelled (as another backend's earlier terminal
failure causes): the select takes ctx.Done() during the first backoff wait. -/
def runCancelled : BackendRun :=
  { cfg := { name := "redis", endpoint := "http://203.0.113.6:6666", apiKey := "" }
    connectAt := fun _ => Except.ok 2
    listToolsAt := fun _ _ => Except.error "no response"
    cancelledAt := fun _ => true }

/-- C5 counterexample: two failing backends that are not attempted 3 times.
A backend that always fails to connect panics on its first RegisterServer
call (nil-session dereference, see C4) and brings the batch down — one
attempt, no backoff, no error counted. A backend whose failures are
returned errors but whose context is cancelled during the first backoff
wait returns the context error after a single attempt with no completed
waits. Both refute "attempts each failing backend exactly 3 times with
doubling backoff ... before counting it as failed". -/
theorem c5_counterexample :
    registerLoop emptyManager runCrash = LoopResult.panicked
    ∧ registerServers emptyManager [runCrash] = none
    ∧ registerLoop emptyManager runCancelled
        = LoopResult.completed emptyManager (some "context canceled") 1 [] := by
  decide

/-- Batch for the C5 witness: "notion" fails all three attempts with
returned (tool-listing) errors and no cancellation; "weather" succeeds on
its first attempt. -/
def runFail3 : BackendRun :=
  { cfg := { name := "notion", endpoint := "http://203.0.113.7:7777", apiKey := "" }
    connectAt := fun _ => Except.ok 9
    listToolsAt := fun _ _ => Except.error "no response"
    cancelledAt := fun _ => false }

def runOk : BackendRun :=
  { cfg := { name := "weather", endpoint := "http://203.0.113.8:8888", apiKey := "" }
    connectAt := fun _ => Except.ok 5
    listToolsAt := fun _ _ => Except.ok [{ name := "get_forecast", description := "f" }]
    cancelledAt := fun _ => false }

/-- The registry produced by the witness batch. -/
def mWitness : Manager :=
  { sessions := [("weather", 5)]
    tools := [("weather", [{ name := "get_forecast", description := "f" }])]
    schemas := [("weather", [{ name := "weather__get_forecast", description := "f" }])]
    order := ["weather"] }

theorem c5_witness :
    registerLoop emptyManager runFail3
      = LoopResult.completed emptyManager
          (some "failed to list tools on notion: no response") 3 [300, 600, 1200]
    ∧ alookup mWitness.sessions "weather" = some 5
    ∧ some "failed to list tools on notion: no response"
        = firstSome ([runFail3, runOk].map loopErr) := by
  have h := c5_retry_policy emptyManager [runFail3, runOk] (by decide)
  have hreg : registerServers emptyManager [runFail3, runOk]
      = some (mWitness, some "failed to list tools on notion: no response") := by
    decide
  refine ⟨?_, ?_, ?_⟩
  · exact h.1 runFail3 (List.mem_cons_self _ _)
      "failed to list tools on notion: no response"
      "failed to list tools on notion: no response"
      "failed to list tools on notion: no response"
      (by decide) (by decide) (by decide) rfl rfl rfl
  · exact (h.2.1 mWitness (some "failed to list tools on notion: no response") hreg
      runOk (List.mem_cons_of_mem _ (List.mem_cons_self _ _))
      { session := 5, tools := [{ name := "get_forecast", description := "f" }] }
      (by decide)).1
  · exact h.2.2 mWitness (some "failed to list tools on notion: no response") hreg

/-- Free-form tool argument map (Go map[string]any, with values abstracted as
strings: no claim inspects the values). -/
abbrev Args := List (String × String)

/-- One tool-call request carried by an assistant response
(openai ToolCall: ID, Type, Function.Name, Function.Arguments). -/
structure ToolCallReq where
  id : String
  callType : String
  name : String
  arguments : String
deriving DecidableEq

/-- Transcript message (openai ChatCompletionMessageParamUnion as used by the
loop): system, user, assistant (with the tool calls it carries, empty when it
is a plain reply), or tool result tagged with the originating call id. -/
inductive MsgU where
  | system : String → MsgU
  | user : String → MsgU
  | assistant : String → List ToolCallReq → MsgU
  | tool : String → String → MsgU
deriving DecidableEq

/-- Go strings.HasSuffix. -/
def goHasSuffix (s suffix : String) : Bool := suffix.data.isSuffixOf s.data

/-- Leftmost index at which pat occurs in s (Go strings.Index, none for -1). -/
def indexFrom (pat : List Char) : List Char → Option Nat
  | [] => if pat.isEmpty then some 0 else none
  | c :: rest =>
    if pat.isPrefixOf (c :: rest) then some 0
    else (indexFrom pat rest).map (· + 1)

/-- Go strings.Contains (an occurrence of sub exists in s). -/
def goContains (s sub : String) : Bool := (indexFrom sub.data s.data).isSome

/-- Index of the last occurrence of a character (Go strings.LastIndex with a
one-character pattern, none for -1). -/
def lastIndexOfCh (c : Char) (s : List Char) : Option Nat :=
  (indexFrom [c] s.reverse).map (fun i => s.length - 1 - i)

/-- The title marker searched for by the Notion-specific repair heuristic
(send-receive-once.go:143). -/
def notionTitlePat : String := "\"title\":[\x7b\"text\":\x7b\"content\":\""

/-- Prefix of the simplified Notion page payload built at
send-receive-once.go:151, up to the spliced-in title. -/
def notionTemplatePre : String :=
  "\x7b\"parent\":\x7b\"page_id\":\"ca42c764-61c4-45f6-9aaf-22910ec57800\"\x7d,\"properties\":\x7b\"title\":[\x7b\"text\":\x7b\"content\":\""

/-- Suffix of the simplified Notion page payload after the spliced-in title. -/
def notionTemplatePost : String := "\"\x7d\x7d]\x7d\x7d"

/-- Argument parsing with the bounded recovery heuristics of
send-receive-once.go 128-184. parse abstracts json.Unmarshal into a map
(ok with the parsed map, or error with the unmarshal error text). On a parse
failure, if the payload does not end in a closing brace or bracket, either
the Notion-specific repair (extract the title and rebuild a simple page
payload) or the generic repair (truncate after the last quote and close with
a bracket and three braces) is attempted once; the final error, if any, is
the error of the last parse attempted. -/
def parseArgsWithRecovery (parse : String → Except String Args)
    (toolName argsRaw : String) : Except String Args :=
  match parse argsRaw with
  | .ok a => .ok a
  | .error e0 =>
    if !(goHasSuffix argsRaw "\x7d") && !(goHasSuffix argsRaw "]") then
      if goContains toolName "notion" && goContains argsRaw "\"content\":\"" then
        match indexFrom notionTitlePat.data argsRaw.data with
        | some ts0 =>
          if 0 < ts0 then
            match indexFrom ['"'] (argsRaw.data.drop (ts0 + notionTitlePat.length)) with
            | some te =>
              if 0 < te then
                parse (notionTemplatePre
                  ++ String.mk ((argsRaw.data.drop (ts0 + notionTitlePat.length)).take te)
                  ++ notionTemplatePost)
              else .error e0
            | none => .error e0
          else .error e0
        | none => .error e0
      else
        match lastIndexOfCh '"' argsRaw.data with
        | some lq =>
          if 0 < lq then parse (String.mk (argsRaw.data.take (lq + 1)) ++ "]\x7d\x7d\x7d")
          else .error e0
        | none => .error e0
    else .error e0

/-- Static collaborators of StrategyOnce.SendtoOpenAI: the history-enabled
flag (OpenAIConfig.AllowHistory), the JSON argument parser (json.Unmarshal)
and the backend call (Manager.CallTool, returning the serialized result text
or the error). -/
structure LoopCfg where
  allowHistory : Bool
  parse : String → Except String Args
  callBackend : String → Args → Except String String

/-- Mutable state threaded through one SendtoOpenAI run: the conversation
history, the strings sent to the reciever channel, and the backend
invocations performed (call id, tool name, parsed args). -/
structure TurnState where
  history : List MsgU
  outputs : List String
  invocations : List (String × String × Args)
deriving DecidableEq

/-- One completion response as consumed by the loop: an API error
(err != nil), a response with zero choices, or the first choice's message
(content and tool calls). -/
inductive Resp where
  | failure : String → Resp
  | empty : Resp
  | message : String → List ToolCallReq → Resp
deriving DecidableEq

/-- Control outcome of one request/response round: stop ends the goroutine
(a return), again loops back to the iterate label, nextUser awaits the next
user message. -/
inductive RoundCtl where
  | stop
  | again
  | nextUser
deriving DecidableEq

/-- Processing of one tool call (send-receive-once.go 118-220): calls whose
type is not "function" are skipped; then the arguments are parsed with
recovery; on final parse failure a tool message recording the error is
appended (history permitting) and nothing is invoked; on success the backend
is invoked and the result (or the error text) is appended as a tool message
tagged with the call id. -/
def processToolCall (cfg : LoopCfg) (st : TurnState) (tc : ToolCallReq) : TurnState :=
  if tc.callType ≠ "function" then st
  else
    match parseArgsWithRecovery cfg.parse tc.name tc.arguments with
    | .error e =>
      if cfg.allowHistory then
        { st with history := st.history ++ [MsgU.tool ("error_parsing_args: " ++ e) tc.id] }
      else st
    | .ok args =>
      let st1 := { st with invocations := st.invocations ++ [(tc.id, tc.name, args)] }
      match cfg.callBackend tc.name args with
      | .error e =>
        if cfg.allowHistory then
          { st1 with history := st1.history ++ [MsgU.tool ("tool_error: " ++ e) tc.id] }
        else st1
      | .ok respStr =>
        if cfg.allowHistory then
          { st1 with history := st1.history ++ [MsgU.tool respStr tc.id] }
        else st1

/-- Sequential processing of all pending tool calls of one assistant message. -/
def processToolCalls (cfg : LoopCfg) (st : TurnState) : List ToolCallReq → TurnState
  | [] => st
  | tc :: rest => processToolCalls cfg (processToolCall cfg st tc) rest

/-- One request/response round of the loop body (send-receive-once.go
85-223). An API failure emits "Error: <message>" and returns. A zero-choice
response reaches reciever <- "Error: " + err.Error() with err nil — a
nil-pointer dereference — and the deferred recover handler (lines 36-45)
sends the generic panic message and the goroutine returns. A response with
no tool calls appends the assistant reply to history (when non-empty and
history is enabled) and emits its content. A response with tool calls
appends the assistant message carrying them, processes each call, and loops
back to iterate. -/
def runRound (cfg : LoopCfg) (st : TurnState) (resp : Resp) : TurnState × RoundCtl :=
  match resp with
  | .failure e => ({ st with outputs := st.outputs ++ ["Error: " ++ e] }, .stop)
  | .empty =>
    ({ st with outputs := st.outputs ++ ["Error: internal panic in SendtoOpenAI"] }, .stop)
  | .message content calls =>
    if calls.isEmpty then
      let st1 :=
        if 0 < content.length && cfg.allowHistory then
          { st with history := st.history ++ [MsgU.assistant content calls] }
        else st
      ({ st1 with outputs := st1.outputs ++ [content] }, .nextUser)
    else
      let st1 :=
        if cfg.allowHistory then
          { st with history := st.history ++ [MsgU.assistant content calls] }
        else st
      (processToolCalls cfg st1 calls, .again)

/-- The iterate loop: rounds are driven by a schedule of completion
responses, consumed one per round, until a round does not jump back to the
iterate label (an exhausted schedule ends the run). -/
def iterateRounds (cfg : LoopCfg) (st : TurnState) : List Resp → TurnState × RoundCtl
  | [] => (st, RoundCtl.stop)
  | r :: rest =>
    let res := runRound cfg st r
    match res.2 with
    | RoundCtl.again => iterateRounds cfg res.1 rest
    | RoundCtl.stop => (res.1, RoundCtl.stop)
    | RoundCtl.nextUser => (res.1, RoundCtl.nextUser)

/-- One user turn of StrategyOnce.SendtoOpenAI: the user message is appended
to the history as-is (no sliding-window trim occurs in this strategy,
send-receive-once.go:76) and the iterate loop runs. -/
def runTurn (cfg : LoopCfg) (st : TurnState) (userMsg : String)
    (resps : List Resp) : TurnState × RoundCtl :=
  iterateRounds cfg { st with history := st.history ++ [MsgU.user userMsg] } resps

/-- The full SendtoOpenAI message loop over a script of user messages, each
with its schedule of completion responses; a turn that ends in stop (error
or panic) returns from the goroutine and consumes no further messages. -/
def runLoop (cfg : LoopCfg) (st : TurnState) : List (String × List Resp) → TurnState
  | [] => st
  | (msg, resps) :: restScript =>
    let res := runTurn cfg st msg resps
    match res.2 with
    | RoundCtl.nextUser => runLoop cfg res.1 restScript
    | RoundCtl.stop => res.1
    | RoundCtl.again => res.1

/-- Call ids carried by a list of tool-call requests. -/
def callIds (calls : List ToolCallReq) : List String := calls.map (fun c => c.id)

/-- Scan of the tool/assistant pairing discipline: pending holds the call ids
of the nearest preceding assistant message that carried tool calls; a tool
message is well-paired iff its call id is pending; any system or user message
clears the pending set. -/
def pairingAux : List String → List MsgU → Bool
  | _, [] => true
  | _, MsgU.system _ :: rest => pairingAux [] rest
  | _, MsgU.user _ :: rest => pairingAux [] rest
  | _, MsgU.assistant _ calls :: rest => pairingAux (callIds calls) rest
  | pending, MsgU.tool _ cid :: rest => decide (cid ∈ pending) && pairingAux pending rest

/-- Transcript-wide tool/assistant pairing invariant. -/
def pairingOK (h : List MsgU) : Bool := pairingAux [] h

/-- The pending id set left after scanning a message list. -/
def scanPending : List String → List MsgU → List String
  | p, [] => p
  | _, MsgU.system _ :: rest => scanPending [] rest
  | _, MsgU.user _ :: rest => scanPending [] rest
  | _, MsgU.assistant _ calls :: rest => scanPending (callIds calls) rest
  | p, MsgU.tool _ _ :: rest => scanPending p rest

theorem pairingAux_append (xs : List MsgU) : ∀ (p : List String) (ys : List MsgU),
    pairingAux p (xs ++ ys) = (pairingAux p xs && pairingAux (scanPending p xs) ys) := by
  induction xs with
  | nil => intro p ys; simp [pairingAux, scanPending]
  | cons x rest ih =>
    intro p ys
    cases x with
    | system s => simp [pairingAux, scanPending, ih]
    | user s => simp [pairingAux, scanPending, ih]
    | assistant c calls => simp [pairingAux, scanPending, ih]
    | tool s cid => simp [pairingAux, scanPending, ih, Bool.and_assoc]

theorem scanPending_append (xs : List MsgU) : ∀ (p : List String) (ys : List MsgU),
    scanPending p (xs ++ ys) = scanPending (scanPending p xs) ys := by
  induction xs with
  | nil => intro p ys; simp [scanPending]
  | cons x rest ih =>
    intro p ys
    cases x <;> simp [scanPending, ih]

theorem pairingOK_snoc_tool (h : List MsgU) (s cid : String) :
    pairingOK (h ++ [MsgU.tool s cid])
      = (pairingOK h && decide (cid ∈ scanPending [] h)) := by
  rw [pairingOK, pairingAux_append]
  simp [pairingAux, pairingOK]

theorem scanPending_snoc_tool (h : List MsgU) (s cid : String) :
    scanPending [] (h ++ [MsgU.tool s cid]) = scanPending [] h := by
  rw [scanPending_append]
  simp [scanPending]

theorem pairingOK_snoc_assistant (h : List MsgU) (c : String) (calls : List ToolCallReq) :
    pairingOK (h ++ [MsgU.assistant c calls]) = pairingOK h := by
  rw [pairingOK, pairingAux_append]
  simp [pairingAux, pairingOK]

theorem scanPending_snoc_assistant (h : List MsgU) (c : String) (calls : List ToolCallReq) :
    scanPending [] (h ++ [MsgU.assistant c calls]) = callIds calls := by
  rw [scanPending_append]
  simp [scanPending]

theorem pairingOK_snoc_user (h : List MsgU) (u : String) :
    pairingOK (h ++ [MsgU.user u]) = pairingOK h := by
  rw [pairingOK, pairingAux_append]
  simp [pairingAux, pairingOK]

theorem processToolCall_history (cfg : LoopCfg) (st : TurnState) (tc : ToolCallReq) :
    (processToolCall cfg st tc).history = st.history
    ∨ ∃ s, (processToolCall cfg st tc).history = st.history ++ [MsgU.tool s tc.id] := by
  unfold processToolCall
  by_cases hty : tc.callType ≠ "function"
  · rw [if_pos hty]
    exact Or.inl rfl
  rw [if_neg hty]
  rcases parseArgsWithRecovery cfg.parse tc.name tc.arguments with e | args
  · dsimp only
    by_cases hah : cfg.allowHistory
    · rw [if_pos hah]
      exact Or.inr ⟨_, rfl⟩
    · rw [if_neg hah]
      exact Or.inl rfl
  · dsimp only
    rcases cfg.callBackend tc.name args with e | r
    · dsimp only
      by_cases hah : cfg.allowHistory
      · rw [if_pos hah]
        exact Or.inr ⟨_, rfl⟩
      · rw [if_neg hah]
        exact Or.inl rfl
    · dsimp only
      by_cases hah : cfg.allowHistory
      · rw [if_pos hah]
        exact Or.inr ⟨_, rfl⟩
      · rw [if_neg hah]
        exact Or.inl rfl

theorem processToolCalls_pairing (cfg : LoopCfg) :
    ∀ (calls : List ToolCallReq) (st : TurnState) (P : List String),
      pairingOK st.history = true → scanPending [] st.history = P →
      (∀ tc, tc ∈ calls → tc.id ∈ P) →
      pairingOK (processToolCalls cfg st calls).history = true
      ∧ scanPending [] (processToolCalls cfg st calls).history = P := by
  intro calls
  induction calls with
  | nil =>
    intro st P h1 h2 _
    exact ⟨h1, h2⟩
  | cons tc rest ih =>
    intro st P h1 h2 hmem
    rw [processToolCalls]
    rcases processToolCall_history cfg st tc with heq | ⟨s, heq⟩
    · exact ih (processToolCall cfg st tc) P (heq ▸ h1) (heq ▸ h2)
        (fun tc' hm => hmem tc' (List.mem_cons_of_mem _ hm))
    · apply ih (processToolCall cfg st tc) P
      · rw [heq, pairingOK_snoc_tool, h1, h2]
        simpa using hmem tc (List.mem_cons_self _ _)
      · rw [heq, scanPending_snoc_tool, h2]
      · exact fun tc' hm => hmem tc' (List.mem_cons_of_mem _ hm)

theorem processToolCall_history_noHistory (cfg : LoopCfg) (st : TurnState)
    (tc : ToolCallReq) (hah : cfg.allowHistory = false) :
    (processToolCall cfg st tc).history = st.history := by
  unfold processToolCall
  by_cases hty : tc.callType ≠ "function"
  · rw [if_pos hty]
  · rw [if_neg hty]
    rcases parseArgsWithRecovery cfg.parse tc.name tc.arguments with e | args
    · simp [hah]
    · dsimp only
      rcases cfg.callBackend tc.name args with e | r <;> simp [hah]

theorem processToolCalls_history_noHistory (cfg : LoopCfg) (hah : cfg.allowHistory = false) :
    ∀ (calls : List ToolCallReq) (st : TurnState),
      (processToolCalls cfg st calls).history = st.history := by
  intro calls
  induction calls with
  | nil => intro st; rfl
  | cons tc rest ih =>
    intro st
    rw [processToolCalls, ih, processToolCall_history_noHistory cfg st tc hah]

theorem runRound_pairing (cfg : LoopCfg) (st : TurnState) (r : Resp)
    (h : pairingOK st.history = true) :
    pairingOK (runRound cfg st r).1.history = true := by
  cases r with
  | failure e => simpa [runRound] using h
  | empty => simpa [runRound] using h
  | message content calls =>
    by_cases hc : calls.isEmpty
    · by_cases hca : (0 < content.length && cfg.allowHistory) = true
      · simpa [runRound, hc, hca, pairingOK_snoc_assistant] using h
      · simpa [runRound, hc, hca] using h
    · by_cases hah : cfg.allowHistory
      · have hmem : ∀ tc, tc ∈ calls → tc.id ∈ callIds calls := by
          intro tc hm
          exact List.mem_map_of_mem _ hm
        have hres := processToolCalls_pairing cfg calls
          { st with history := st.history ++ [MsgU.assistant content calls] }
          (callIds calls)
          (by simpa [pairingOK_snoc_assistant] using h)
          (by simp [scanPending_snoc_assistant]) hmem
        simpa [runRound, hc, hah] using hres.1
      · have hres := processToolCalls_history_noHistory cfg (by simpa using hah) calls st
        simp only [runRound, hc, if_neg hah, if_false]
        simpa [runRound, hc, hah, hres] using h

theorem iterateRounds_pairing (cfg : LoopCfg) :
    ∀ (resps : List Resp) (st : TurnState), pairingOK st.history = true →
      pairingOK (iterateRounds cfg st resps).1.history = true := by
  intro resps
  induction resps with
  | nil => intro st h; exact h
  | cons r rest ih =>
    intro st h
    rw [iterateRounds]
    have hr := runRound_pairing cfg st r h
    cases hctl : (runRound cfg st r).2 with
    | again => exact ih _ hr
    | stop => exact hr
    | nextUser => exact hr

theorem runTurn_pairing (cfg : LoopCfg) (st : TurnState) (u : String)
    (resps : List Resp) (h : pairingOK st.history = true) :
    pairingOK (runTurn cfg st u resps).1.history = true := by
  apply iterateRounds_pairing
  simpa [pairingOK_snoc_user] using h

theorem runLoop_pairing (cfg : LoopCfg) :
    ∀ (script : List (String × List Resp)) (st : TurnState),
      pairingOK st.history = true → pairingOK (runLoop cfg st script).history = true := by
  intro script
  induction script with
  | nil => intro st h; exact h
  | cons turn rest ih =>
    intro st h
    obtain ⟨msg, resps⟩ := turn
    rw [runLoop]
    have hr := runTurn_pairing cfg st msg resps h
    cases (runTurn cfg st msg resps).2 with
    | again => exact hr
    | stop => exact hr
    | nextUser => exact ih _ hr

/-- C2: every transcript produced by the orchestration loop satisfies the
tool/assistant pairing invariant: each tool message's call id is among the
ids of the tool-call requests carried by the immediately preceding assistant
message that had pending calls (only other tool messages of the same run may
intervene), and no tool message appears without such a preceding call. -/
theorem c2_tool_pairing (cfg : LoopCfg) (sys : String)
    (script : List (String × List Resp)) :
    pairingOK (runLoop cfg
      { history := [MsgU.system sys], outputs := [], invocations := [] } script).history
      = true :=
  runLoop_pairing cfg script _ rfl

/-- C6: a completion response with zero choices surfaces an error line on
the output stream and terminates the turn. In the source the zero-choice
branch evaluates err.Error() on the nil err (send-receive-once.go:94), a
nil-pointer dereference; the deferred recover handler (lines 36-45) sends
the generic error line to the reciever channel and the goroutine returns
(modelled by RoundCtl.stop); the history is unchanged by the round and the
rest of the response schedule is never consumed. -/
theorem c6_empty_choices (cfg : LoopCfg) (st : TurnState) (rest : List Resp) :
    iterateRounds cfg st (Resp.empty :: rest)
      = ({ st with outputs := st.outputs ++ ["Error: internal panic in SendtoOpenAI"] },
          RoundCtl.stop) := rfl

/-- C8: a tool call whose argument payload fails to parse even after the
recovery heuristics leads, with history enabled (as in every caller), to a
tool message recording the parse error tagged with that call's id being
appended to the transcript, no backend invocation for that call, processing
continuing with the remaining pending calls, and the round still looping
back to iterate (the turn is not aborted). -/
theorem c8_parse_failure (cfg : LoopCfg) (st : TurnState) (tc : ToolCallReq)
    (rest : List ToolCallReq) (e : String) (content : String)
    (hty : tc.callType = "function")
    (hah : cfg.allowHistory = true)
    (hfail : parseArgsWithRecovery cfg.parse tc.name tc.arguments = .error e) :
    processToolCalls cfg st (tc :: rest)
      = processToolCalls cfg
          { st with history := st.history ++ [MsgU.tool ("error_parsing_args: " ++ e) tc.id] }
          rest
    ∧ (processToolCall cfg st tc).invocations = st.invocations
    ∧ (runRound cfg st (Resp.message content (tc :: rest))).2 = RoundCtl.again := by
  have hstep : processToolCall cfg st tc
      = { st with history := st.history ++ [MsgU.tool ("error_parsing_args: " ++ e) tc.id] } := by
    unfold processToolCall
    rw [if_neg (by simp [hty]), hfail]
    dsimp only
    rw [if_pos hah]
  refine ⟨?_, ?_, ?_⟩
  · rw [processToolCalls, hstep]
  · rw [hstep]
  · simp [runRound]

/-- Loop collaborators for the C8 witness: history enabled, a JSON parser
that rejects the (truncated) payload, a backend that would answer. -/
def cfgW : LoopCfg :=
  { allowHistory := true
    parse := fun _ => Except.error "unexpected end of JSON input"
    callBackend := fun _ _ => Except.ok "ok" }

/-- A tool call with a truncated argument payload for the C8 witness. -/
def tcW : ToolCallReq :=
  { id := "call_1", callType := "function", name := "weather__get_forecast",
    arguments := "\x7b\"city\":\"Par" }

theorem c8_witness :
    processToolCalls cfgW { history := [], outputs := [], invocations := [] } [tcW]
      = { history := [MsgU.tool "error_parsing_args: unexpected end of JSON input" "call_1"],
          outputs := [], invocations := [] } := by
  have h := c8_parse_failure cfgW { history := [], outputs := [], invocations := [] } tcW []
    "unexpected end of JSON input" "" rfl rfl (by rfl)
  simpa [processToolCalls] using h.1

/-- Modelled from the spec: utils.MakeHistoryWindow (pkg/utils) is absent
from the sources, only its call sites are; per the spec ("the transcript is
trimmed to keep the system message plus the most recent N turns", one turn
being a user/assistant pair) it keeps the head system message and the last
2*N of the remaining messages. -/
def makeHistoryWindow (msgs : List MsgU) (historySize : Nat) : List MsgU :=
  match msgs with
  | [] => []
  | sys :: rest => sys :: rest.drop (rest.length - 2 * historySize)

/-- Dispatch step of RunMemoryChatbot (memory-chatbot-service.go 89-95): the
sliding-window trim is applied to the history, then the user message is
appended. -/
def memoryServiceDispatch (h : List MsgU) (userMsg : String)
    (historySize : Nat) : List MsgU :=
  makeHistoryWindow h historySize ++ [MsgU.user userMsg]

/-- C3 (amended): in the memory-chatbot service loop the sliding-window trim
is applied before each new user message is appended, and after trimming the
transcript length is at most 1 + 2*N with the system message still at index
0 (never removed); the once strategy, by contrast, appends the user message
without any trim (see the counterexample). -/
theorem c3_window_bound (s : String) (rest : List MsgU) (u : String) (n : Nat) :
    (makeHistoryWindow (MsgU.system s :: rest) n).length ≤ 1 + 2 * n
    ∧ (makeHistoryWindow (MsgU.system s :: rest) n).head? = some (MsgU.system s)
    ∧ memoryServiceDispatch (MsgU.system s :: rest) u n
        = makeHistoryWindow (MsgU.system s :: rest) n ++ [MsgU.user u] := by
  refine ⟨?_, rfl, rfl⟩
  simp only [makeHistoryWindow, List.length_cons, List.length_drop]
  omega

/-- A 12-message transcript (system message plus five full turns plus one
more user message), exceeding the N = 5 window bound of 11. -/
def histTwelve : List MsgU :=
  [MsgU.system "sys", MsgU.user "u1", MsgU.assistant "a1" [], MsgU.user "u2",
   MsgU.assistant "a2" [], MsgU.user "u3", MsgU.assistant "a3" [], MsgU.user "u4",
   MsgU.assistant "a4" [], MsgU.user "u5", MsgU.assistant "a5" [], MsgU.user "u6"]

/-- Loop collaborators for the C3 counterexample. -/
def cfgOnce : LoopCfg :=
  { allowHistory := true
    parse := fun _ => Except.error "e"
    callBackend := fun _ _ => Except.ok "r" }

/-- C3 counterexample: the once strategy (StrategyOnce.SendtoOpenAI, wired
with HistorySize 5 by main) appends the new user message to a 12-message
transcript without any trim, yielding 13 messages, although a trim applied
before the append would leave at most 1 + 2*5 + 1 = 12. -/
theorem c3_counterexample :
    (runTurn cfgOnce { history := histTwelve, outputs := [], invocations := [] }
        "hi" []).1.history.length = 13
    ∧ 1 + 2 * 5 + 1 < 13 :=
  ⟨rfl, by decide⟩

theorem alookup_set_map_eq (l : List (Nat × List ToolSchema)) (k i : Nat)
    (v : ToolSchema) :
    alookup (l.map (fun e => if e.1 = k then (e.1, e.2.set i v) else e)) k
      = (alookup l k).map (fun s => s.set i v) := by
  induction l with
  | nil => rfl
  | cons e rest ih =>
    obtain ⟨k0, v0⟩ := e
    dsimp only [List.map_cons]
    by_cases h : k0 = k
    · subst h
      rw [if_pos rfl]
      simp [alookup, ih]
    · rw [if_neg h]
      simp [alookup, h, ih]

theorem alookup_set_map_ne (l : List (Nat × List ToolSchema)) (k k' i : Nat)
    (v : ToolSchema) (hne : k' ≠ k) :
    alookup (l.map (fun e => if e.1 = k then (e.1, e.2.set i v) else e)) k'
      = alookup l k' := by
  induction l with
  | nil => rfl
  | cons e rest ih =>
    obtain ⟨k0, v0⟩ := e
    dsimp only [List.map_cons]
    by_cases h : k0 = k
    · subst h
      rw [if_pos rfl]
      have hne' : ¬k0 = k' := fun hx => hne hx.symm
      simp [alookup, hne', ih]
    · rw [if_neg h]
      by_cases h2 : k0 = k'
      · simp [alookup, h2]
      · simp [alookup, h2, ih]

theorem alookup_append {κ α : Type} [DecidableEq κ] (l1 l2 : List (κ × α)) (k : κ) :
    alookup (l1 ++ l2) k
      = match alookup l1 k with
        | some v => some v
        | none => alookup l2 k := by
  induction l1 with
  | nil => simp [alookup]
  | cons e rest ih =>
    obtain ⟨k0, v0⟩ := e
    by_cases h : k0 = k
    · simp [alookup, h]
    · simp [alookup, h, ih]

/-- Reference to a slice backing array, the model of a Go slice header. -/
structure SliceRef where
  arr : Nat
deriving DecidableEq

/-- Backing arrays of the registry's schema slices, by array id; nextId is
the next fresh id used when a copy allocates a new array. -/
structure SchemaHeap where
  store : List (Nat × List ToolSchema)
  nextId : Nat
deriving DecidableEq

/-- Contents of a slice, read through its backing array. -/
def heapGet (hp : SchemaHeap) (r : SliceRef) : Option (List ToolSchema) :=
  alookup hp.store r.arr

/-- Write of element i of a slice through its backing array (the observable
effect of mutating a returned slice in Go). -/
def heapSet (hp : SchemaHeap) (r : SliceRef) (i : Nat) (v : ToolSchema) : SchemaHeap :=
  { hp with
    store := hp.store.map (fun e => if e.1 = r.arr then (e.1, e.2.set i v) else e) }

/-- GetSchemas (mcp-manager.go 248-258) at the slice level: the stored slice
for the name is looked up and, when present, copied into a freshly allocated
backing array (cpy := make(...); copy(cpy, s); return cpy) whose reference
is returned; absent names return nil. The heap tracks backing arrays by id
so that aliasing between the returned value and the registry's storage is
observable. -/
def getSchemas (hp : SchemaHeap) (mp : List (String × SliceRef)) (name : String) :
    SchemaHeap × Option SliceRef :=
  match alookup mp name with
  | some r =>
    match heapGet hp r with
    | some contents =>
      ({ store := hp.store ++ [(hp.nextId, contents)], nextId := hp.nextId + 1 },
        some { arr := hp.nextId })
    | none => (hp, none)
  | none => (hp, none)

/-- GetAllSchemas (mcp-manager.go 261-265): returns the internal schemas map
itself, not a copy. -/
def getAllSchemas (mp : List (String × SliceRef)) : List (String × SliceRef) := mp

/-- C10: GetSchemas returns a reference to a fresh copy of the stored schema
slice, so writing any element of the returned slice leaves the registry's
stored contents unchanged; GetAllSchemas returns the registry's internal map
itself, so writing an element through one of its slice references alters the
registry's stored contents. -/
theorem c10_copy_vs_alias (hp : SchemaHeap) (mp : List (String × SliceRef))
    (name : String) (r : SliceRef) (contents : List ToolSchema)
    (hr : alookup mp name = some r)
    (hc : heapGet hp r = some contents)
    (hwf : r.arr < hp.nextId) :
    (getSchemas hp mp name).2 = some { arr := hp.nextId }
    ∧ (∀ i v, heapGet (heapSet (getSchemas hp mp name).1 { arr := hp.nextId } i v) r
        = some contents)
    ∧ getAllSchemas mp = mp
    ∧ (∀ i v, heapGet (heapSet hp r i v) r = some (contents.set i v)) := by
  have hne : r.arr ≠ hp.nextId := Nat.ne_of_lt hwf
  have hc' : alookup hp.store r.arr = some contents := hc
  refine ⟨?_, ?_, rfl, ?_⟩
  · simp [getSchemas, hr, hc]
  · intro i v
    simp only [getSchemas, hr, hc]
    unfold heapGet heapSet
    dsimp only
    rw [alookup_set_map_ne _ _ _ _ _ hne, alookup_append, hc']
  · intro i v
    unfold heapGet heapSet
    dsimp only
    rw [alookup_set_map_eq, hc']
    rfl

/-- Heap and schemas map with one backend for the C10 witness. -/
def heapW : SchemaHeap :=
  { store := [(0, [{ name := "weather__get_forecast", description := "f" }])], nextId := 1 }

def mapW : List (String × SliceRef) := [("weather", { arr := 0 })]

theorem c10_witness :
    (getSchemas heapW mapW "weather").2 = some { arr := 1 }
    ∧ heapGet (heapSet (getSchemas heapW mapW "weather").1 { arr := 1 } 0
        { name := "x", description := "y" }) { arr := 0 }
        = some [{ name := "weather__get_forecast", description := "f" }]
    ∧ heapGet (heapSet heapW { arr := 0 } 0 { name := "x", description := "y" })
        { arr := 0 }
        = some [{ name := "x", description := "y" }] := by
  have h := c10_copy_vs_alias heapW mapW "weather" { arr := 0 }
    [{ name := "weather__get_forecast", description := "f" }] rfl rfl (by decide)
  exact ⟨h.1, h.2.1 0 { name := "x", description := "y" },
    by simpa using h.2.2.2 0 { name := "x", description := "y" }⟩

end GoChat
